import Mathlib

/-!
Shallow embedding of the databend raft-store state machine
(`src/common/meta/raft-store/src/state_machine/sm.rs`) and proofs about its
apply path: sequence allocation, versioned upsert semantics, TTL filtering,
watcher notification, client-response deduplication and transaction
evaluation.

The sled storage engine, `common_meta_types` helpers (`SeqV` accessors,
`MatchSeq` matching) and the protobuf condition decoding are not part of the
excerpted source; they are modelled from the specification where noted.
Everything else is translated directly from `sm.rs`.
-/

namespace RaftSM

/-- User values stored in the generic KV keyspace (`Vec<u8>` in the source). -/
abbrev Bytes := List Nat

/-- Opaque node record (`Node` is opaque in the spec, §3). -/
abbrev Node := Nat

/-- Opaque membership config carried by `EntryPayload::Membership`. -/
abbrev Membership := Nat

/-- Opaque application-level error payload carried by `AppliedState::AppError`. -/
abbrev AppErr := Nat

/-- `KVMeta { expire_at: Option<u64> }` from the data model (§3). -/
structure KVMeta where
  expire_at : Option Nat
deriving DecidableEq, Repr

/-- `SeqV<V> { seq, meta, data }` from the data model (§3). -/
structure SeqV (V : Type) where
  seq : Nat
  meta : Option KVMeta
  data : V
deriving DecidableEq, Repr

/-- Modelled from the spec (§3): `SeqV::with_meta(seq, meta, data)` from
`common_meta_types` (not under the excerpted source) builds a record from its
three fields. -/
def SeqV.with_meta {V : Type} (seq : Nat) (meta : Option KVMeta) (data : V) : SeqV V :=
  ⟨seq, meta, data⟩

/-- Modelled from the spec (§3): `SeqV::set_meta` replaces only the `meta`
field, preserving `seq` and `data`. -/
def SeqV.set_meta {V : Type} (v : SeqV V) (meta : Option KVMeta) : SeqV V :=
  { v with meta := meta }

/-- Modelled from the spec (§3): `SeqV::get_expire_at` from
`common_meta_types` reads `meta.expire_at`; a record without an expiry never
expires (the source returns `u64::MAX` there, modelled as `none`). -/
def SeqV.get_expire_at {V : Type} (v : SeqV V) : Option Nat :=
  v.meta.bind (fun m => m.expire_at)

/-- `MatchSeq` precondition on an existing record's seq (§4.3). -/
inductive MatchSeq
  | Any
  | Eq (n : Nat)
  | GE (n : Nat)
deriving DecidableEq, Repr

/-- Modelled from the spec (§4.3): `MatchSeqExt::match_seq` from
`common_meta_types` (not under the excerpted source). `Any` always matches;
`Eq n` matches iff the record is present with `seq = n`; `GE n` matches iff
the record is present with `seq ≥ n`. -/
def MatchSeq.match_seq {V : Type} : MatchSeq → Option (SeqV V) → Bool
  | .Any, _ => true
  | .Eq n, some v => decide (v.seq = n)
  | .Eq _, none => false
  | .GE n, some v => decide (n ≤ v.seq)
  | .GE _, none => false

/-- `Operation<V>`: the value op of an upsert (§4.3). -/
inductive Operation (V : Type)
  | Update (v : V)
  | Delete
  | AsIs
deriving DecidableEq, Repr

/-- `LogId { term, index }`. -/
structure LogId where
  term : Nat
  index : Nat
deriving DecidableEq, Repr

/-- `RaftTxId { client, serial }` enabling at-most-once semantics. -/
structure RaftTxId where
  client : String
  serial : Nat
deriving DecidableEq, Repr

/-- Lexicographic comparison of byte strings, as Rust's `Ord` on `Vec<u8>`
(spec §4.6: `Value` comparisons are lexicographic byte comparisons). -/
def bytesLt : Bytes → Bytes → Bool
  | [], [] => false
  | [], _ :: _ => true
  | _ :: _, [] => false
  | a :: as, b :: bs => if a < b then true else if b < a then false else bytesLt as bs

/-- Comparison operator of a transaction condition (`ConditionResult` in the
source; the protobuf `i32` decoding is boundary code, modelled as the enum of
valid operators). -/
inductive ConditionResult
  | Eq
  | Gt
  | Lt
  | Ne
  | Ge
  | Le
deriving DecidableEq, Repr

/-- Target of a transaction condition: `Seq(u64)` or `Value(bytes)`. -/
inductive TxnTarget
  | Seq (n : Nat)
  | Value (v : Bytes)
deriving DecidableEq, Repr

/-- `TxnCondition { key, expected, target }`. -/
structure TxnCondition where
  key : String
  expected : ConditionResult
  target : Option TxnTarget
deriving DecidableEq, Repr

/-- `TxnGetRequest { key }`. -/
structure TxnGetRequest where
  key : String
deriving DecidableEq, Repr

/-- `TxnPutRequest { key, value, prev_value }`. -/
structure TxnPutRequest where
  key : String
  value : Bytes
  prev_value : Bool
deriving DecidableEq, Repr

/-- `TxnDeleteRequest { key, prev_value }`. -/
structure TxnDeleteRequest where
  key : String
  prev_value : Bool
deriving DecidableEq, Repr

/-- `txn_op::Request`: one of Get / Put / Delete. -/
inductive TxnOpRequest
  | Get (g : TxnGetRequest)
  | Put (p : TxnPutRequest)
  | Delete (d : TxnDeleteRequest)
deriving DecidableEq, Repr

/-- `TxnOp { request: Option<txn_op::Request> }`. -/
structure TxnOp where
  request : Option TxnOpRequest
deriving DecidableEq, Repr

/-- `TxnRequest { condition, if_then, else_then }`. -/
structure TxnRequest where
  condition : List TxnCondition
  if_then : List TxnOp
  else_then : List TxnOp
deriving DecidableEq, Repr

/-- Modelled from the spec (§4.6): protobuf `PbSeqV` as produced by
`PbSeqV::from(SeqV)` — the seq and the bytes of a record. -/
structure PbSeqV where
  seq : Nat
  data : Bytes
deriving DecidableEq, Repr

/-- Modelled from the spec: `PbSeqV::from` projects seq and data. -/
def PbSeqV.from (v : SeqV Bytes) : PbSeqV :=
  ⟨v.seq, v.data⟩

/-- `TxnGetResponse { key, value }`. -/
structure TxnGetResponse where
  key : String
  value : Option PbSeqV
deriving DecidableEq, Repr

/-- `TxnPutResponse { key, prev_value }`. -/
structure TxnPutResponse where
  key : String
  prev_value : Option PbSeqV
deriving DecidableEq, Repr

/-- `TxnDeleteResponse { key, success, prev_value }`. -/
structure TxnDeleteResponse where
  key : String
  success : Bool
  prev_value : Option PbSeqV
deriving DecidableEq, Repr

/-- `txn_op_response::Response`. -/
inductive TxnOpResponseKind
  | Get (g : TxnGetResponse)
  | Put (p : TxnPutResponse)
  | Delete (d : TxnDeleteResponse)
deriving DecidableEq, Repr

/-- `TxnOpResponse { response }`. -/
structure TxnOpResponse where
  response : Option TxnOpResponseKind
deriving DecidableEq, Repr

/-- `TxnReply { success, error, responses }`. -/
structure TxnReply where
  success : Bool
  error : String
  responses : List TxnOpResponse
deriving DecidableEq, Repr

/-- `AppliedState`: the tagged union returned by apply (§3). `NodeChange`
carries the `(prev, result)` pair of `AppliedState::Node`, `KV` the pair of
`AppliedState::KV(Change)`. -/
inductive AppliedState
  | None
  | Seq (n : Nat)
  | NodeChange (prev result : Option Node)
  | KV (prev result : Option (SeqV Bytes))
  | TxnReply (r : TxnReply)
  | AppError (e : AppErr)
deriving DecidableEq, Repr

/-- `ClientLastRespValue { req_serial_num, res }`. -/
structure ClientLastRespValue where
  req_serial_num : Nat
  res : AppliedState
deriving DecidableEq, Repr

/-- `MetaStorageError` variants (§4.1): storage failures plus the transparent
`AppError` pass-through. -/
inductive MetaStorageError
  | IOErr (msg : String)
  | Conflict (msg : String)
  | Corruption (msg : String)
  | NotFound (msg : String)
  | AppError (e : AppErr)
deriving DecidableEq, Repr

/-- `Cmd`: the command of a `Normal` log entry (§6). -/
inductive Cmd
  | IncrSeq (key : String)
  | AddNode (node_id : Nat) (node : Node)
  | RemoveNode (node_id : Nat)
  | UpsertKV (key : String) (seq : MatchSeq) (value : Operation Bytes) (value_meta : Option KVMeta)
  | Transaction (req : TxnRequest)
deriving DecidableEq, Repr

/-- `LogEntry { txid, cmd }`. -/
structure LogEntry where
  txid : Option RaftTxId
  cmd : Cmd
deriving DecidableEq, Repr

/-- `EntryPayload`: Blank, Normal or Membership. -/
inductive EntryPayload
  | Blank
  | Normal (d : LogEntry)
  | Membership (m : Membership)
deriving DecidableEq, Repr

/-- `Entry { log_id, payload }`. -/
structure Entry where
  log_id : LogId
  payload : EntryPayload
deriving DecidableEq, Repr

/-- Modelled from the spec (§4.1): association-list lookup, the storage
engine's per-keyspace `get`. -/
def alGet {K V : Type} [DecidableEq K] : List (K × V) → K → Option V
  | [], _ => none
  | (k0, v0) :: rest, k => if k0 = k then some v0 else alGet rest k

/-- Modelled from the spec (§4.1): association-list insert-or-replace, the
storage engine's per-keyspace `insert`. -/
def alInsert {K V : Type} [DecidableEq K] : List (K × V) → K → V → List (K × V)
  | [], k, v => [(k, v)]
  | (k0, v0) :: rest, k, v =>
      if k0 = k then (k, v) :: rest else (k0, v0) :: alInsert rest k v

/-- Modelled from the spec (§4.1): association-list removal, the storage
engine's per-keyspace `remove`. -/
def alRemove {K V : Type} [DecidableEq K] : List (K × V) → K → List (K × V)
  | [], _ => []
  | (k0, v0) :: rest, k =>
      if k0 = k then alRemove rest k else (k0, v0) :: alRemove rest k

/-- The `StateMachineMeta` keyspace: `Initialized`, `LastApplied`,
`LastMembership` singletons. -/
structure SMMeta where
  initialized : Option Bool
  lastApplied : Option LogId
  lastMembership : Option (LogId × Membership)
deriving DecidableEq, Repr

/-- The state machine's durable state: the five logical keyspaces of the one
physical tree (§3). -/
structure SMState where
  sequences : List (String × Nat)
  genericKV : List (String × SeqV Bytes)
  nodes : List (Nat × Node)
  clientLastResps : List (String × ClientLastRespValue)
  smMeta : SMMeta
deriving DecidableEq, Repr

/-- The empty (freshly created) state machine state. -/
def initState : SMState :=
  ⟨[], [], [], [], ⟨none, none, none⟩⟩

/-- `GenericKV::NAME`, the name of the sequence counter consumed by KV
writes ("generic-kv", §4.3/I2). -/
def genericKVName : String := "generic-kv"

/-- Current value of a named sequence counter (0 when absent). -/
def counterOf (s : SMState) (name : String) : Nat :=
  (alGet s.sequences name).getD 0

/-- Current value of the `"generic-kv"` counter. -/
def gkvCounter (s : SMState) : Nat :=
  counterOf s genericKVName

/-- Events observable around one apply: watcher notifications
(`StateMachineSubscriber::kv_changed`), batch commit, batch abort. The trace
records them in the order they happen. -/
inductive Event
  | notify (key : String) (prev result : Option (SeqV Bytes))
  | commit
  | abort
deriving DecidableEq, Repr

/-- Whether an event is the batch commit. -/
def Event.isCommit : Event → Bool
  | .commit => true
  | _ => false

/-- Whether an event is a watcher notification. -/
def Event.isNotify : Event → Bool
  | .notify _ _ _ => true
  | _ => false

/-- True when some watcher notification occurs strictly before the first
commit event of a trace (i.e. it was emitted inside the uncommitted batch). -/
def notifyBeforeCommit (tr : List Event) : Bool :=
  (tr.takeWhile (fun e => !e.isCommit)).any (fun e => e.isNotify)

/-- `StateMachine::txn_incr_seq`: read prior counter (0 if absent), store
value+1, return value+1 (sm.rs:638). -/
def txn_incr_seq (key : String) (s : SMState) : Nat × SMState :=
  let old := (alGet s.sequences key).getD 0
  let curr := old + 1
  (curr, { s with sequences := alInsert s.sequences key curr })

/-- `StateMachine::unexpired` (sm.rs:799): hide a record whose
`get_expire_at() < now`; a record without expiry is never hidden. -/
def unexpired {V : Type} (now : Nat) (v : SeqV V) : Option (SeqV V) :=
  match v.get_expire_at with
  | none => some v
  | some ex => if ex < now then none else some v

/-- `StateMachine::unexpired_opt` (sm.rs:795). -/
def unexpired_opt {V : Type} (now : Nat) (v : Option (SeqV V)) : Option (SeqV V) :=
  v.bind (unexpired now)

/-- `StateMachine::txn_sub_tree_do_update` (sm.rs:683), specialised to the
GenericKV keyspace: write a record without seq check. `Update` builds
`SeqV::with_meta(0, value_meta, v)`; `Delete` removes the key; `AsIs` keeps
the previous data with the new meta. A written record gets
`seq := txn_incr_seq(KS::NAME)`. -/
def txn_sub_tree_do_update (s : SMState) (key : String) (prev : Option (SeqV Bytes))
    (value_meta : Option KVMeta) (value_op : Operation Bytes) :
    Option (SeqV Bytes) × SMState :=
  match value_op with
  | .Delete => (none, { s with genericKV := alRemove s.genericKV key })
  | .Update v =>
      let kv0 := SeqV.with_meta 0 value_meta v
      let r := txn_incr_seq genericKVName s
      let kv := { kv0 with seq := r.1 }
      (some kv, { r.2 with genericKV := alInsert r.2.genericKV key kv })
  | .AsIs =>
      match prev with
      | none => (none, s)
      | some prev_kv =>
          let kv0 := prev_kv.set_meta value_meta
          let r := txn_incr_seq genericKVName s
          let kv := { kv0 with seq := r.1 }
          (some kv, { r.2 with genericKV := alInsert r.2.genericKV key kv })

/-- `StateMachine::txn_sub_tree_upsert` (sm.rs:651): read prev, filter it
through `unexpired`, check `match_seq`; when unmatched return
`(prev, prev)` without touching the state, else delegate to
`txn_sub_tree_do_update`. -/
def txn_sub_tree_upsert (now : Nat) (s : SMState) (key : String) (seq : MatchSeq)
    (value_op : Operation Bytes) (value_meta : Option KVMeta) :
    (Option (SeqV Bytes) × Option (SeqV Bytes)) × SMState :=
  let prev := unexpired_opt now (alGet s.genericKV key)
  if seq.match_seq prev then
    let r := txn_sub_tree_do_update s key prev value_meta value_op
    ((prev, r.1), r.2)
  else
    ((prev, prev), s)

/-- `StateMachine::return_value_condition_result` (sm.rs:369): compare the
record's data bytes with the target bytes. -/
def return_value_condition_result (expected : ConditionResult) (target_value : Bytes)
    (value : SeqV Bytes) : Bool :=
  match expected with
  | .Eq => decide (value.data = target_value)
  | .Gt => bytesLt target_value value.data
  | .Lt => bytesLt value.data target_value
  | .Ne => decide (¬ value.data = target_value)
  | .Ge => !bytesLt value.data target_value
  | .Le => !bytesLt target_value value.data

/-- `StateMachine::return_seq_condition_result` (sm.rs:386): compare the
record's seq with the target seq. -/
def return_seq_condition_result (expected : ConditionResult) (target_seq : Nat)
    (value : SeqV Bytes) : Bool :=
  match expected with
  | .Eq => decide (value.seq = target_seq)
  | .Gt => decide (target_seq < value.seq)
  | .Lt => decide (value.seq < target_seq)
  | .Ne => decide (¬ value.seq = target_seq)
  | .Ge => decide (target_seq ≤ value.seq)
  | .Le => decide (value.seq ≤ target_seq)

/-- `StateMachine::txn_execute_one_condition` (sm.rs:404): read the stored
record (no expiry filtering in the source), then compare. An absent record
with a `Seq` target is compared as the default `SeqV` (seq 0); with a
`Value` target the condition is false; a condition without target is false. -/
def txn_execute_one_condition (s : SMState) (cond : TxnCondition) : Bool :=
  let sv := alGet s.genericKV cond.key
  match cond.target with
  | some (.Seq target_seq) =>
      return_seq_condition_result cond.expected target_seq (sv.getD ⟨0, none, []⟩)
  | some (.Value target_value) =>
      match sv with
      | some v => return_value_condition_result cond.expected target_value v
      | none => false
  | none => false

/-- Modelled from the spec: condition evaluation as §4.6 step 1 words it —
the condition reads the **expired-filtered** record for the key. This
definition follows the spec's words and exists only to be compared with the
source's `txn_execute_one_condition`, which reads the raw record. -/
def txn_execute_one_condition_filtered (now : Nat) (s : SMState) (cond : TxnCondition) :
    Bool :=
  let sv := unexpired_opt now (alGet s.genericKV cond.key)
  match cond.target with
  | some (.Seq target_seq) =>
      return_seq_condition_result cond.expected target_seq (sv.getD ⟨0, none, []⟩)
  | some (.Value target_value) =>
      match sv with
      | some v => return_value_condition_result cond.expected target_value v
      | none => false
  | none => false

/-- `StateMachine::txn_execute_condition` (sm.rs:446): all conditions must
hold. -/
def txn_execute_condition (s : SMState) (condition : List TxnCondition) : Bool :=
  condition.all (fun cond => txn_execute_one_condition s cond)

/-- `StateMachine::txn_execute_get_operation` (sm.rs:462): read the raw
record and append a Get response. -/
def txn_execute_get_operation (s : SMState) (get : TxnGetRequest) (resp : TxnReply) :
    SMState × TxnReply :=
  let sv := alGet s.genericKV get.key
  let get_resp : TxnGetResponse := ⟨get.key, sv.map PbSeqV.from⟩
  (s, { resp with responses := resp.responses ++ [⟨some (.Get get_resp)⟩] })

/-- `StateMachine::txn_execute_put_operation` (sm.rs:483): upsert with
`MatchSeq::Any`, `Operation::Update(value)` and `value_meta = None`, then
append a Put response. -/
def txn_execute_put_operation (now : Nat) (s : SMState) (put : TxnPutRequest)
    (resp : TxnReply) : SMState × TxnReply :=
  let r := txn_sub_tree_upsert now s put.key .Any (.Update put.value) none
  let put_resp : TxnPutResponse :=
    ⟨put.key, if put.prev_value then r.1.1.map PbSeqV.from else none⟩
  (r.2, { resp with responses := resp.responses ++ [⟨some (.Put put_resp)⟩] })

/-- `StateMachine::txn_execute_delete_operation` (sm.rs:515): upsert with
`MatchSeq::Any`, `Operation::Delete` and `value_meta = None`, then append a
Delete response. -/
def txn_execute_delete_operation (now : Nat) (s : SMState) (delete : TxnDeleteRequest)
    (resp : TxnReply) : SMState × TxnReply :=
  let r := txn_sub_tree_upsert now s delete.key .Any .Delete none
  let del_resp : TxnDeleteResponse :=
    ⟨delete.key, (r.1.1).isSome,
      if delete.prev_value then r.1.1.map PbSeqV.from else none⟩
  (r.2, { resp with responses := resp.responses ++ [⟨some (.Delete del_resp)⟩] })

/-- `StateMachine::txn_execute_operation` (sm.rs:549): dispatch one txn op;
an op without request is a no-op. -/
def txn_execute_operation (now : Nat) (s : SMState) (op : TxnOp) (resp : TxnReply) :
    SMState × TxnReply :=
  match op.request with
  | some (.Get get) => txn_execute_get_operation s get resp
  | some (.Put put) => txn_execute_put_operation now s put resp
  | some (.Delete delete) => txn_execute_delete_operation now s delete resp
  | none => (s, resp)

/-- Sequential execution of the chosen op list (the `for op in ops` loop of
`apply_txn_cmd`, sm.rs:597). -/
def txn_execute_ops (now : Nat) (ops : List TxnOp) (s : SMState) (resp : TxnReply) :
    SMState × TxnReply :=
  ops.foldl (fun acc op => txn_execute_operation now acc.1 op acc.2) (s, resp)

/-- `StateMachine::apply_txn_cmd` (sm.rs:573): evaluate the conditions,
choose `if_then` or `else_then`, run the ops, reply with the chosen
`success` flag. -/
def apply_txn_cmd (now : Nat) (s : SMState) (req : TxnRequest) :
    SMState × AppliedState :=
  let success := txn_execute_condition s req.condition
  let ops := if success then req.if_then else req.else_then
  let r := txn_execute_ops now ops s ⟨success, "", []⟩
  (r.1, .TxnReply r.2)

/-- `StateMachine::apply_add_node_cmd` (sm.rs:305): insert only when absent;
`result` is `None` when the node already existed. -/
def apply_add_node_cmd (node_id : Nat) (node : Node) (s : SMState) :
    SMState × AppliedState × List Event :=
  let prev := alGet s.nodes node_id
  match prev with
  | some p => (s, .NodeChange (some p) none, [])
  | none =>
      ({ s with nodes := alInsert s.nodes node_id node }, .NodeChange none (some node), [])

/-- `StateMachine::apply_remove_node_cmd` (sm.rs:325): remove when present;
`result` is always `None`. -/
def apply_remove_node_cmd (node_id : Nat) (s : SMState) :
    SMState × AppliedState × List Event :=
  let prev := alGet s.nodes node_id
  match prev with
  | some p => ({ s with nodes := alRemove s.nodes node_id }, .NodeChange (some p) none, [])
  | none => (s, .NodeChange none none, [])

/-- `StateMachine::apply_update_kv_cmd` (sm.rs:342): upsert on GenericKV and,
when a subscriber is set, call `kv_changed(key, prev, result)` right there —
inside the transaction closure. -/
def apply_update_kv_cmd (hasSub : Bool) (now : Nat) (s : SMState) (key : String)
    (seq : MatchSeq) (value_op : Operation Bytes) (value_meta : Option KVMeta) :
    SMState × AppliedState × List Event :=
  let r := txn_sub_tree_upsert now s key seq value_op value_meta
  let evs := if hasSub then [Event.notify key r.1.1 r.1.2] else []
  (r.2, .KV r.1.1 r.1.2, evs)

/-- `StateMachine::apply_cmd` (sm.rs:610): dispatch on the command. -/
def apply_cmd (hasSub : Bool) (now : Nat) (cmd : Cmd) (s : SMState) :
    SMState × AppliedState × List Event :=
  match cmd with
  | .IncrSeq key =>
      let r := txn_incr_seq key s
      (r.2, .Seq r.1, [])
  | .AddNode node_id node => apply_add_node_cmd node_id node s
  | .RemoveNode node_id => apply_remove_node_cmd node_id s
  | .UpsertKV key seq value_op value_meta =>
      apply_update_kv_cmd hasSub now s key seq value_op value_meta
  | .Transaction req =>
      let r := apply_txn_cmd now s req
      (r.1, r.2, [])

/-- `StateMachine::txn_get_client_last_resp` (sm.rs:759): the stored
`(serial, response)` for a client, defaulting to `(0, AppliedState::None)`
when no record exists. -/
def txn_get_client_last_resp (s : SMState) (key : String) : Nat × AppliedState :=
  match alGet s.clientLastResps key with
  | some resp => (resp.req_serial_num, resp.res)
  | none => (0, .None)

/-- `StateMachine::txn_client_last_resp_update` (sm.rs:714): store
`{serial, response}` for a client. -/
def txn_client_last_resp_update (s : SMState) (key : String) (serial : Nat)
    (res : AppliedState) : SMState :=
  { s with clientLastResps := alInsert s.clientLastResps key ⟨serial, res⟩ }

/-- The `LastApplied := entry.log_id` write performed first inside the apply
closure (sm.rs:233). -/
def withLastApplied (s : SMState) (lid : LogId) : SMState :=
  { s with smMeta := { s.smMeta with lastApplied := some lid } }

/-- The transaction closure of `StateMachine::apply` (sm.rs:231): write
`LastApplied`, then dispatch on the payload; a `Normal` entry with a txid is
deduplicated against `ClientLastResps`, otherwise the command is evaluated
and the fresh response stored. The command evaluator is a parameter so the
apply machinery can be studied for any command outcome; the state machine's
own evaluator is `apply_cmd`, which never fails. Returns the closure result
and the watcher events emitted while it ran. -/
def applyClosureWith
    (evalCmd : Cmd → SMState → Except MetaStorageError (SMState × AppliedState × List Event))
    (entry : Entry) (s : SMState) :
    Except MetaStorageError (SMState × Option AppliedState) × List Event :=
  let s1 := withLastApplied s entry.log_id
  match entry.payload with
  | .Blank => (.ok (s1, none), [])
  | .Normal data =>
      match data.txid with
      | some txid =>
          if (txn_get_client_last_resp s1 txid.client).1 = txid.serial then
            (.ok (s1, some (txn_get_client_last_resp s1 txid.client).2), [])
          else
            match evalCmd data.cmd s1 with
            | .error e => (.error e, [])
            | .ok (s2, applied, evs) =>
                (.ok (txn_client_last_resp_update s2 txid.client txid.serial applied,
                  some applied), evs)
      | none =>
          match evalCmd data.cmd s1 with
          | .error e => (.error e, [])
          | .ok (s2, applied, evs) => (.ok (s2, some applied), evs)
  | .Membership m =>
      let s2 := { s1 with smMeta := { s1.smMeta with lastMembership := some (entry.log_id, m) } }
      (.ok (s2, some AppliedState.None), [])

/-- Modelled from the spec (§4.1): `SledTree::txn` runs the closure as one
batch; a closure returning `Ok` commits the new state, a closure returning
`Err` — including the transparent `AppError` pass-through — aborts the batch,
leaving the state unchanged. The trace records the commit or abort after the
closure's own events. -/
def smTxn {α : Type}
    (f : SMState → Except MetaStorageError (SMState × α) × List Event)
    (s : SMState) : SMState × Except MetaStorageError α × List Event :=
  match f s with
  | (.ok (s2, r), evs) => (s2, .ok r, evs ++ [Event.commit])
  | (.error e, evs) => (s, .error e, evs ++ [Event.abort])

/-- `StateMachine::apply` (sm.rs:223) parameterised by the command
evaluator: run the closure in a batch; convert a `MetaStorageError::AppError`
into the success-path `AppliedState::AppError`; a missing result becomes
`AppliedState::None`. -/
def smApplyWith
    (evalCmd : Cmd → SMState → Except MetaStorageError (SMState × AppliedState × List Event))
    (entry : Entry) (s : SMState) :
    SMState × Except MetaStorageError AppliedState × List Event :=
  match smTxn (applyClosureWith evalCmd entry) s with
  | (s2, .ok opt, evs) => (s2, .ok (opt.getD .None), evs)
  | (s2, .error (.AppError e), evs) => (s2, .ok (.AppError e), evs)
  | (s2, .error e, evs) => (s2, .error e, evs)

/-- `StateMachine::apply` with the state machine's own command evaluator
`apply_cmd` (which is total: the source commands only fail on storage
errors, which the functional model does not raise). -/
def smApply (hasSub : Bool) (now : Nat) (entry : Entry) (s : SMState) :
    SMState × Except MetaStorageError AppliedState × List Event :=
  smApplyWith (fun c st => .ok (apply_cmd hasSub now c st)) entry s

/-- Applying a list of commands in order (the states visited between two
mutations in apply order). -/
def applyCmds (hasSub : Bool) (now : Nat) (cmds : List Cmd) (s : SMState) : SMState :=
  cmds.foldl (fun st c => (apply_cmd hasSub now c st).1) s

/-- State after a first concrete KV write on the empty state machine (used to
instantiate the sequence-monotonicity theorem). -/
def c6s1 : SMState :=
  (txn_sub_tree_do_update initState "a" none none (.Update [1])).2

/-- State after additionally applying an `IncrSeq "generic-kv"` command. -/
def c6s2 : SMState :=
  applyCmds false 0 [Cmd.IncrSeq genericKVName] c6s1

/-! ### Helper lemmas -/

theorem alGet_alInsert {K V : Type} [DecidableEq K] (l : List (K × V)) (k k2 : K) (v : V) :
    alGet (alInsert l k v) k2 = if k = k2 then some v else alGet l k2 := by
  induction l with
  | nil =>
      by_cases h : k = k2 <;> simp [alInsert, alGet, h]
  | cons hd tl ih =>
      obtain ⟨k0, v0⟩ := hd
      by_cases h0 : k0 = k
      · subst h0
        by_cases h : k0 = k2 <;> simp [alInsert, alGet, h]
      · by_cases h : k = k2
        · subst h
          simp [alInsert, alGet, h0, ih]
        · simp only [alInsert, if_neg h0, alGet]
          by_cases h2 : k0 = k2 <;> simp [h2, ih, h]

theorem alGet_alInsert_self {K V : Type} [DecidableEq K] (l : List (K × V)) (k : K) (v : V) :
    alGet (alInsert l k v) k = some v := by
  simp [alGet_alInsert]

theorem alGet_alInsert_ne {K V : Type} [DecidableEq K] (l : List (K × V)) (k k2 : K) (v : V)
    (h : ¬ k = k2) : alGet (alInsert l k v) k2 = alGet l k2 := by
  simp [alGet_alInsert, h]

theorem counterOf_txn_incr_seq (s : SMState) (key name : String) :
    counterOf (txn_incr_seq key s).2 name =
      if key = name then counterOf s key + 1 else counterOf s name := by
  by_cases h : key = name <;>
    simp [txn_incr_seq, counterOf, alGet_alInsert, h]

theorem gkvCounter_txn_incr_seq_le (s : SMState) (key : String) :
    gkvCounter s ≤ gkvCounter (txn_incr_seq key s).2 := by
  unfold gkvCounter
  rw [counterOf_txn_incr_seq]
  by_cases h : key = genericKVName
  · subst h
    simp
  · simp [h]

theorem gkvCounter_do_update_some (s : SMState) (key : String) (prev : Option (SeqV Bytes))
    (vm : Option KVMeta) (op : Operation Bytes) (r : SeqV Bytes) (s2 : SMState)
    (h : txn_sub_tree_do_update s key prev vm op = (some r, s2)) :
    r.seq = gkvCounter s + 1 ∧ gkvCounter s2 = gkvCounter s + 1 := by
  cases op with
  | Delete => simp [txn_sub_tree_do_update] at h
  | Update v =>
      simp only [txn_sub_tree_do_update, txn_incr_seq, Prod.mk.injEq, Option.some.injEq] at h
      obtain ⟨hr, hs⟩ := h
      subst hr
      subst hs
      constructor
      · rfl
      · simp [gkvCounter, counterOf, alGet_alInsert]
  | AsIs =>
      cases prev with
      | none => simp [txn_sub_tree_do_update] at h
      | some pv =>
          simp only [txn_sub_tree_do_update, txn_incr_seq, Prod.mk.injEq,
            Option.some.injEq] at h
          obtain ⟨hr, hs⟩ := h
          subst hr
          subst hs
          constructor
          · rfl
          · simp [gkvCounter, counterOf, alGet_alInsert]

theorem gkvCounter_do_update_le (s : SMState) (key : String) (prev : Option (SeqV Bytes))
    (vm : Option KVMeta) (op : Operation Bytes) :
    gkvCounter s ≤ gkvCounter (txn_sub_tree_do_update s key prev vm op).2 := by
  cases op with
  | Delete => simp [txn_sub_tree_do_update, gkvCounter, counterOf]
  | Update v =>
      simp only [txn_sub_tree_do_update]
      have h := gkvCounter_txn_incr_seq_le s genericKVName
      simpa [gkvCounter, counterOf] using h
  | AsIs =>
      cases prev with
      | none => simp [txn_sub_tree_do_update]
      | some pv =>
          simp only [txn_sub_tree_do_update]
          have h := gkvCounter_txn_incr_seq_le s genericKVName
          simpa [gkvCounter, counterOf] using h

theorem gkvCounter_upsert_le (now : Nat) (s : SMState) (key : String) (seq : MatchSeq)
    (op : Operation Bytes) (vm : Option KVMeta) :
    gkvCounter s ≤ gkvCounter (txn_sub_tree_upsert now s key seq op vm).2 := by
  unfold txn_sub_tree_upsert
  by_cases h : seq.match_seq (unexpired_opt now (alGet s.genericKV key)) = true
  · simp only [h, if_true]
    exact gkvCounter_do_update_le s key _ vm op
  · simp only [Bool.not_eq_true] at h
    simp [h]

theorem gkvCounter_txn_op_le (now : Nat) (s : SMState) (op : TxnOp) (resp : TxnReply) :
    gkvCounter s ≤ gkvCounter (txn_execute_operation now s op resp).1 := by
  rcases op with ⟨req⟩
  cases req with
  | none => simp [txn_execute_operation]
  | some r =>
      cases r with
      | Get g => simp [txn_execute_operation, txn_execute_get_operation]
      | Put p =>
          simp only [txn_execute_operation, txn_execute_put_operation]
          exact gkvCounter_upsert_le now s p.key .Any (.Update p.value) none
      | Delete d =>
          simp only [txn_execute_operation, txn_execute_delete_operation]
          exact gkvCounter_upsert_le now s d.key .Any .Delete none

theorem gkvCounter_txn_ops_le (now : Nat) (ops : List TxnOp) (s : SMState) (resp : TxnReply) :
    gkvCounter s ≤ gkvCounter (txn_execute_ops now ops s resp).1 := by
  induction ops generalizing s resp with
  | nil => simp [txn_execute_ops]
  | cons hd tl ih =>
      simp only [txn_execute_ops, List.foldl_cons]
      exact le_trans (gkvCounter_txn_op_le now s hd resp) (ih _ _)

theorem gkvCounter_apply_cmd_le (hasSub : Bool) (now : Nat) (cmd : Cmd) (s : SMState) :
    gkvCounter s ≤ gkvCounter (apply_cmd hasSub now cmd s).1 := by
  cases cmd with
  | IncrSeq key =>
      simp only [apply_cmd]
      exact gkvCounter_txn_incr_seq_le s key
  | AddNode node_id node =>
      simp only [apply_cmd, apply_add_node_cmd]
      cases alGet s.nodes node_id <;> simp [gkvCounter, counterOf]
  | RemoveNode node_id =>
      simp only [apply_cmd, apply_remove_node_cmd]
      cases alGet s.nodes node_id <;> simp [gkvCounter, counterOf]
  | UpsertKV key seq op vm =>
      simp only [apply_cmd, apply_update_kv_cmd]
      exact gkvCounter_upsert_le now s key seq op vm
  | Transaction req =>
      simp only [apply_cmd, apply_txn_cmd]
      exact gkvCounter_txn_ops_le now _ s _

theorem gkvCounter_applyCmds_le (hasSub : Bool) (now : Nat) (cmds : List Cmd) (s : SMState) :
    gkvCounter s ≤ gkvCounter (applyCmds hasSub now cmds s) := by
  induction cmds generalizing s with
  | nil => simp [applyCmds]
  | cons hd tl ih =>
      simp only [applyCmds, List.foldl_cons]
      exact le_trans (gkvCounter_apply_cmd_le hasSub now hd s) (ih _)

/-! ### Claim theorems -/

/-- Claim C6: every record written by an `Update` or `AsIs` upsert carries
`seq` equal to the pre-update value of the `"generic-kv"` counter plus one,
and the counter is stored incremented; consequently two writes in apply
order (with any commands applied in between) produce strictly increasing,
hence distinct, seq values. -/
theorem C6_seq_alloc_monotonic (hasSub : Bool) (nowMid : Nat) (s s1 s3 : SMState)
    (cmds : List Cmd) (k1 k2 : String) (p1 p2 : Option (SeqV Bytes))
    (vm1 vm2 : Option KVMeta) (op1 op2 : Operation Bytes) (r1 r2 : SeqV Bytes)
    (h1 : txn_sub_tree_do_update s k1 p1 vm1 op1 = (some r1, s1))
    (h2 : txn_sub_tree_do_update (applyCmds hasSub nowMid cmds s1) k2 p2 vm2 op2 =
      (some r2, s3)) :
    r1.seq = gkvCounter s + 1 ∧ gkvCounter s1 = gkvCounter s + 1 ∧
    r2.seq = gkvCounter (applyCmds hasSub nowMid cmds s1) + 1 ∧
    r1.seq < r2.seq ∧ r1.seq ≠ r2.seq := by
  obtain ⟨e1, c1⟩ := gkvCounter_do_update_some s k1 p1 vm1 op1 r1 s1 h1
  obtain ⟨e2, _⟩ := gkvCounter_do_update_some _ k2 p2 vm2 op2 r2 s3 h2
  have mono := gkvCounter_applyCmds_le hasSub nowMid cmds s1
  exact ⟨e1, c1, e2, by omega, by omega⟩

/-- Witness for C6 at a concrete input: first write gets seq 1, an
interleaved `IncrSeq "generic-kv"` consumes a tick, the next write gets
seq 3. -/
theorem C6_seq_alloc_monotonic_witness :
    (⟨1, none, [1]⟩ : SeqV Bytes).seq = gkvCounter initState + 1 ∧
    gkvCounter c6s1 = gkvCounter initState + 1 ∧
    (⟨3, none, [2]⟩ : SeqV Bytes).seq = gkvCounter c6s2 + 1 ∧
    (⟨1, none, [1]⟩ : SeqV Bytes).seq < (⟨3, none, [2]⟩ : SeqV Bytes).seq ∧
    (⟨1, none, [1]⟩ : SeqV Bytes).seq ≠ (⟨3, none, [2]⟩ : SeqV Bytes).seq :=
  C6_seq_alloc_monotonic false 0 initState c6s1
    (txn_sub_tree_do_update c6s2 "b" none none (.Update [2])).2
    [Cmd.IncrSeq genericKVName] "a" "b" none none none none
    (.Update [1]) (.Update [2]) ⟨1, none, [1]⟩ ⟨3, none, [2]⟩ (by decide) (by decide)

/-- Claim C7: an upsert whose `match_seq` precondition is unmatched leaves
the whole state (hence also the sequence counter) unchanged and returns a
`Change` whose `prev` and `result` are both the filtered previous record. -/
theorem C7_unmatched_upsert_noop (now : Nat) (s : SMState) (key : String)
    (mseq : MatchSeq) (op : Operation Bytes) (vm : Option KVMeta)
    (h : mseq.match_seq (unexpired_opt now (alGet s.genericKV key)) = false) :
    txn_sub_tree_upsert now s key mseq op vm =
      ((unexpired_opt now (alGet s.genericKV key),
        unexpired_opt now (alGet s.genericKV key)), s) ∧
    gkvCounter (txn_sub_tree_upsert now s key mseq op vm).2 = gkvCounter s := by
  refine ⟨?_, ?_⟩ <;> simp [txn_sub_tree_upsert, h]

/-- Witness for C7: `MatchSeq::Eq(99)` on the empty store is unmatched; the
upsert is a no-op with `prev = result`. -/
theorem C7_unmatched_upsert_noop_witness :
    MatchSeq.match_seq (V := Bytes) (.Eq 99)
      (unexpired_opt 0 (alGet initState.genericKV "a")) = false ∧
    (txn_sub_tree_upsert 0 initState "a" (.Eq 99) (.Update [1]) none =
      ((unexpired_opt 0 (alGet initState.genericKV "a"),
        unexpired_opt 0 (alGet initState.genericKV "a")), initState) ∧
     gkvCounter (txn_sub_tree_upsert 0 initState "a" (.Eq 99) (.Update [1]) none).2 =
       gkvCounter initState) :=
  ⟨by decide, C7_unmatched_upsert_noop 0 initState "a" (.Eq 99) (.Update [1]) none (by decide)⟩

/-- Claim C8: a transaction condition on an absent key is false for every
comparison operator when the target is `Value`; with a `Seq` target it is
compared against the default record with `seq = 0`; hence on a store where
the key is absent, the condition `{target: Seq(0), expected: Eq}` holds and
`if_then` runs with `success = true`. -/
theorem C8_absent_key_condition (now : Nat) (s : SMState) (key : String)
    (cmp : ConditionResult) (v : Bytes) (n : Nat) (it et : List TxnOp)
    (h : alGet s.genericKV key = none) :
    txn_execute_one_condition s ⟨key, cmp, some (.Value v)⟩ = false ∧
    txn_execute_one_condition s ⟨key, cmp, some (.Seq n)⟩ =
      return_seq_condition_result cmp n ⟨0, none, []⟩ ∧
    txn_execute_condition s [⟨key, .Eq, some (.Seq 0)⟩] = true ∧
    apply_txn_cmd now s ⟨[⟨key, .Eq, some (.Seq 0)⟩], it, et⟩ =
      ((txn_execute_ops now it s ⟨true, "", []⟩).1,
        .TxnReply (txn_execute_ops now it s ⟨true, "", []⟩).2) := by
  have hseq : ∀ c m, txn_execute_one_condition s ⟨key, c, some (.Seq m)⟩ =
      return_seq_condition_result c m ⟨0, none, []⟩ := by
    intro c m
    simp [txn_execute_one_condition, h]
  have h3 : txn_execute_condition s [⟨key, .Eq, some (.Seq 0)⟩] = true := by
    simp [txn_execute_condition, hseq, return_seq_condition_result]
  refine ⟨by simp [txn_execute_one_condition, h], hseq cmp n, h3, ?_⟩
  simp [apply_txn_cmd, h3]

/-- Witness for C8: empty store, key "k", a `Put` in `if_then`. -/
theorem C8_absent_key_condition_witness :
    alGet initState.genericKV "k" = none ∧
    (txn_execute_one_condition initState ⟨"k", .Gt, some (.Value [1])⟩ = false ∧
     txn_execute_one_condition initState ⟨"k", .Gt, some (.Seq 5)⟩ =
       return_seq_condition_result .Gt 5 ⟨0, none, []⟩ ∧
     txn_execute_condition initState [⟨"k", .Eq, some (.Seq 0)⟩] = true ∧
     apply_txn_cmd 0 initState
         ⟨[⟨"k", .Eq, some (.Seq 0)⟩], [⟨some (.Put ⟨"k", [7], false⟩)⟩], []⟩ =
       ((txn_execute_ops 0 [⟨some (.Put ⟨"k", [7], false⟩)⟩] initState ⟨true, "", []⟩).1,
         .TxnReply
           (txn_execute_ops 0 [⟨some (.Put ⟨"k", [7], false⟩)⟩] initState
             ⟨true, "", []⟩).2)) :=
  ⟨by decide,
    C8_absent_key_condition 0 initState "k" .Gt [1] 5
      [⟨some (.Put ⟨"k", [7], false⟩)⟩] [] (by decide)⟩

/-- Claim C9: among all commands only a top-level `UpsertKV` can emit a
watcher notification; in particular a `Transaction` (whose `Put`/`Delete`
ops go through `txn_sub_tree_upsert` directly) emits none. -/
theorem C9_only_upsert_notifies (hasSub : Bool) (now : Nat) (cmd : Cmd) (s : SMState) :
    (apply_cmd hasSub now cmd s).2.2 = [] ∨
      ∃ key mseq op vm, cmd = Cmd.UpsertKV key mseq op vm := by
  cases cmd with
  | UpsertKV key mseq op vm => exact Or.inr ⟨key, mseq, op, vm, rfl⟩
  | IncrSeq key => exact Or.inl rfl
  | Transaction req => exact Or.inl rfl
  | AddNode nid node =>
      refine Or.inl ?_
      rcases hp : alGet s.nodes nid with _ | p <;>
        simp [apply_cmd, apply_add_node_cmd, hp]
  | RemoveNode nid =>
      refine Or.inl ?_
      rcases hp : alGet s.nodes nid with _ | p <;>
        simp [apply_cmd, apply_remove_node_cmd, hp]

/-- Claim C10: every `Put` inside a transaction upserts with
`value_meta = None`; the written record always has `meta = None` (erasing
any previous `KVMeta`) and data equal to the put value. -/
theorem C10_txn_put_meta_none (now : Nat) (s : SMState) (put : TxnPutRequest)
    (resp : TxnReply) :
    alGet (txn_execute_put_operation now s put resp).1.genericKV put.key =
      some ⟨gkvCounter s + 1, none, put.value⟩ := by
  simp [txn_execute_put_operation, txn_sub_tree_upsert, MatchSeq.match_seq,
    txn_sub_tree_do_update, txn_incr_seq, SeqV.with_meta, alGet_alInsert_self,
    gkvCounter, counterOf]

/-- Claim C1 as stated is false: a command evaluation that produces an
application-level error makes the closure return `Err(AppError)`, which
aborts the batch; apply converts it to `AppliedState::AppError` on the
success path, but `LastApplied` is not advanced to `entry.log_id`. -/
theorem C1_app_error_counterexample :
    (smApplyWith (fun _ _ => .error (.AppError 7))
        ⟨⟨1, 1⟩, .Normal ⟨none, .IncrSeq "x"⟩⟩ initState).2.1 =
      .ok (.AppError 7) ∧
    ¬ (smApplyWith (fun _ _ => .error (.AppError 7))
        ⟨⟨1, 1⟩, .Normal ⟨none, .IncrSeq "x"⟩⟩ initState).1.smMeta.lastApplied =
      some ⟨1, 1⟩ :=
  ⟨rfl, by decide⟩

/-- Claim C1 amended: when command evaluation produces
`MetaStorageError::AppError`, `apply` returns `AppliedState::AppError` on
the success path, but the enclosing batch is aborted: the state — including
`LastApplied` — is unchanged, and the trace ends in an abort, not a
commit. -/
theorem C1_app_error_returned_batch_aborted
    (f : Cmd → SMState → Except MetaStorageError (SMState × AppliedState × List Event))
    (entry : Entry) (s : SMState) (e : AppErr) (evs : List Event)
    (h : applyClosureWith f entry s = (.error (.AppError e), evs)) :
    smApplyWith f entry s = (s, .ok (.AppError e), evs ++ [Event.abort]) := by
  simp [smApplyWith, smTxn, h]

/-- Witness for the amended C1 at a concrete input: the state is returned
unchanged and the response is the success-path `AppError`. -/
theorem C1_app_error_returned_batch_aborted_witness :
    applyClosureWith (fun _ _ => .error (.AppError 7))
        ⟨⟨1, 1⟩, .Normal ⟨none, .IncrSeq "x"⟩⟩ initState =
      (.error (.AppError 7), []) ∧
    smApplyWith (fun _ _ => .error (.AppError 7))
        ⟨⟨1, 1⟩, .Normal ⟨none, .IncrSeq "x"⟩⟩ initState =
      (initState, .ok (.AppError 7), [] ++ [Event.abort]) :=
  ⟨rfl,
    C1_app_error_returned_batch_aborted (fun _ _ => .error (.AppError 7))
      ⟨⟨1, 1⟩, .Normal ⟨none, .IncrSeq "x"⟩⟩ initState 7 [] rfl⟩

/-- Claim C2 as stated is false: an entry with `txid = ("c", 0)` from a
client with no `ClientLastResps` record is skipped, not applied — the lookup
defaults to serial 0, which equals the entry's serial. Apply returns
`AppliedState::None` and the KV store stays empty. -/
theorem C2_serial_zero_counterexample :
    (smApply false 0
        ⟨⟨1, 1⟩, .Normal ⟨some ⟨"c", 0⟩, .UpsertKV "a" .Any (.Update [1]) none⟩⟩
        initState).2.1 = .ok .None ∧
    (smApply false 0
        ⟨⟨1, 1⟩, .Normal ⟨some ⟨"c", 0⟩, .UpsertKV "a" .Any (.Update [1]) none⟩⟩
        initState).1.genericKV = [] :=
  ⟨rfl, rfl⟩

/-- Claim C2 amended: apply skips command application and returns the looked
up response whenever the stored serial for the client — which defaults to
`(0, AppliedState::None)` when no record exists — equals the entry's serial;
only `LastApplied` is written. -/
theorem C2_dedup_skip (hasSub : Bool) (now : Nat) (s : SMState) (lid : LogId)
    (txid : RaftTxId) (cmd : Cmd)
    (h : (txn_get_client_last_resp (withLastApplied s lid) txid.client).1 = txid.serial) :
    smApply hasSub now ⟨lid, .Normal ⟨some txid, cmd⟩⟩ s =
      (withLastApplied s lid,
        .ok (txn_get_client_last_resp (withLastApplied s lid) txid.client).2,
        [Event.commit]) := by
  simp [smApply, smApplyWith, smTxn, applyClosureWith, h]

/-- Witness for the amended C2: unknown client, serial 0 — the command is
skipped and only `LastApplied` changes. -/
theorem C2_dedup_skip_witness :
    (txn_get_client_last_resp (withLastApplied initState ⟨1, 1⟩) "c").1 = 0 ∧
    smApply false 0 ⟨⟨1, 1⟩, .Normal ⟨some ⟨"c", 0⟩, .IncrSeq "x"⟩⟩ initState =
      (withLastApplied initState ⟨1, 1⟩,
        .ok (txn_get_client_last_resp (withLastApplied initState ⟨1, 1⟩) "c").2,
        [Event.commit]) :=
  ⟨by decide,
    C2_dedup_skip false 0 initState ⟨1, 1⟩ ⟨"c", 0⟩ (.IncrSeq "x") (by decide)⟩

/-- Claim C3 as stated is false: for a committed `UpsertKV` the
`kv_changed` notification appears in the trace strictly before the commit
event — it is emitted from inside the uncommitted transaction closure. -/
theorem C3_notify_before_commit_counterexample :
    notifyBeforeCommit
      (smApply true 0
        ⟨⟨1, 1⟩, .Normal ⟨none, .UpsertKV "a" .Any (.Update [1]) none⟩⟩
        initState).2.2 = true := by
  decide

/-- Claim C3 amended: the watcher notification for an `UpsertKV` is emitted
inside the transaction closure: the trace of a successful apply is the
notification followed by the batch commit, so the notification precedes the
commit rather than following it. -/
theorem C3_notify_inside_txn (now : Nat) (s : SMState) (lid : LogId) (key : String)
    (mseq : MatchSeq) (op : Operation Bytes) (vm : Option KVMeta) :
    (smApply true now ⟨lid, .Normal ⟨none, .UpsertKV key mseq op vm⟩⟩ s).2.2 =
      [Event.notify key
          (txn_sub_tree_upsert now (withLastApplied s lid) key mseq op vm).1.1
          (txn_sub_tree_upsert now (withLastApplied s lid) key mseq op vm).1.2,
        Event.commit] := by
  simp [smApply, smApplyWith, smTxn, applyClosureWith, apply_cmd, apply_update_kv_cmd]

/-- Claim C4 as stated is false at the boundary `now = t`: the source hides
a record only when `expire_at < now` (strict), so at wall time exactly equal
to `expire_at` the record is still returned and the upsert still sees it as
`prev`. -/
theorem C4_expiry_boundary_counterexample :
    unexpired_opt 100 (alGet [("t", (⟨1, some ⟨some 100⟩, [7]⟩ : SeqV Bytes))] "t") =
      some ⟨1, some ⟨some 100⟩, [7]⟩ ∧
    (txn_sub_tree_upsert 100
        { initState with genericKV := [("t", ⟨1, some ⟨some 100⟩, [7]⟩)] }
        "t" (.Eq 1) (.Update [8]) none).1.1 = some ⟨1, some ⟨some 100⟩, [7]⟩ :=
  ⟨rfl, rfl⟩

/-- Claim C4 amended: for a stored record with `expire_at = t` and `t < now`
(strictly), reads filter it to `None`, the upsert treats `prev` as `None`
for the operation, and when the precondition then fails nothing is written:
the record remains on disk. -/
theorem C4_expired_treated_absent (now t : Nat) (s : SMState) (key : String)
    (v : SeqV Bytes) (mseq : MatchSeq) (op : Operation Bytes) (vm : Option KVMeta)
    (hv : alGet s.genericKV key = some v)
    (hexp : v.get_expire_at = some t)
    (ht : t < now)
    (hm : mseq.match_seq (none : Option (SeqV Bytes)) = false) :
    unexpired_opt now (alGet s.genericKV key) = none ∧
    txn_sub_tree_upsert now s key mseq op vm = ((none, none), s) ∧
    alGet (txn_sub_tree_upsert now s key mseq op vm).2.genericKV key = some v := by
  have hfilter : unexpired_opt now (alGet s.genericKV key) = none := by
    simp [unexpired_opt, hv, unexpired, hexp, ht]
  have hup : txn_sub_tree_upsert now s key mseq op vm = ((none, none), s) := by
    simp [txn_sub_tree_upsert, hfilter, hm]
  exact ⟨hfilter, hup, by rw [hup]; exact hv⟩

/-- Witness for the amended C4: record expired at 100, read at 150 under a
`MatchSeq::Eq(1)` upsert — hidden from the read, treated as absent, left on
disk. -/
theorem C4_expired_treated_absent_witness :
    alGet ({ initState with
        genericKV := [("t", ⟨1, some ⟨some 100⟩, [7]⟩)] } : SMState).genericKV "t" =
      some ⟨1, some ⟨some 100⟩, [7]⟩ ∧
    (⟨1, some ⟨some 100⟩, [7]⟩ : SeqV Bytes).get_expire_at = some 100 ∧
    (100 : Nat) < 150 ∧
    MatchSeq.match_seq (V := Bytes) (.Eq 1) none = false ∧
    (unexpired_opt 150
        (alGet ({ initState with
          genericKV := [("t", ⟨1, some ⟨some 100⟩, [7]⟩)] } : SMState).genericKV "t") =
        none ∧
      txn_sub_tree_upsert 150
          { initState with genericKV := [("t", ⟨1, some ⟨some 100⟩, [7]⟩)] }
          "t" (.Eq 1) (.Update [8]) none =
        ((none, none),
          { initState with genericKV := [("t", ⟨1, some ⟨some 100⟩, [7]⟩)] }) ∧
      alGet (txn_sub_tree_upsert 150
          { initState with genericKV := [("t", ⟨1, some ⟨some 100⟩, [7]⟩)] }
          "t" (.Eq 1) (.Update [8]) none).2.genericKV "t" =
        some ⟨1, some ⟨some 100⟩, [7]⟩) :=
  ⟨by decide, by decide, by decide, by decide,
    C4_expired_treated_absent 150 100
      { initState with genericKV := [("t", ⟨1, some ⟨some 100⟩, [7]⟩)] }
      "t" ⟨1, some ⟨some 100⟩, [7]⟩ (.Eq 1) (.Update [8]) none
      (by decide) (by decide) (by decide) (by decide)⟩

/-- Claim C5 as stated is false: the source evaluates transaction conditions
against the raw stored record with no expiry filtering, while the
spec-worded evaluation (expired record treated as absent) gives the opposite
answer on a record whose `expire_at` has passed. -/
theorem C5_condition_ignores_expiry_counterexample :
    txn_execute_one_condition
        { initState with genericKV := [("k", ⟨3, some ⟨some 50⟩, [9]⟩)] }
        ⟨"k", .Eq, some (.Value [9])⟩ = true ∧
    txn_execute_one_condition_filtered 100
        { initState with genericKV := [("k", ⟨3, some ⟨some 50⟩, [9]⟩)] }
        ⟨"k", .Eq, some (.Value [9])⟩ = false :=
  ⟨rfl, rfl⟩

/-- Claim C5 amended: condition evaluation reads the raw stored record — for
a present record the result is exactly the comparison against that record,
regardless of any `expire_at` it carries or of the wall time. -/
theorem C5_condition_reads_raw (s : SMState) (key : String) (cmp : ConditionResult)
    (v : Bytes) (n : Nat) (sv : SeqV Bytes)
    (h : alGet s.genericKV key = some sv) :
    txn_execute_one_condition s ⟨key, cmp, some (.Value v)⟩ =
      return_value_condition_result cmp v sv ∧
    txn_execute_one_condition s ⟨key, cmp, some (.Seq n)⟩ =
      return_seq_condition_result cmp n sv := by
  constructor <;> simp [txn_execute_one_condition, h]

/-- Witness for the amended C5: an expired record (expire_at 50) is still
compared as present. -/
theorem C5_condition_reads_raw_witness :
    alGet ({ initState with
        genericKV := [("k", ⟨3, some ⟨some 50⟩, [9]⟩)] } : SMState).genericKV "k" =
      some ⟨3, some ⟨some 50⟩, [9]⟩ ∧
    (txn_execute_one_condition
        { initState with genericKV := [("k", ⟨3, some ⟨some 50⟩, [9]⟩)] }
        ⟨"k", .Eq, some (.Value [9])⟩ =
      return_value_condition_result .Eq [9] ⟨3, some ⟨some 50⟩, [9]⟩ ∧
    txn_execute_one_condition
        { initState with genericKV := [("k", ⟨3, some ⟨some 50⟩, [9]⟩)] }
        ⟨"k", .Eq, some (.Seq 3)⟩ =
      return_seq_condition_result .Eq 3 ⟨3, some ⟨some 50⟩, [9]⟩) :=
  ⟨by decide,
    C5_condition_reads_raw
      { initState with genericKV := [("k", ⟨3, some ⟨some 50⟩, [9]⟩)] }
      "k" .Eq [9] 3 ⟨3, some ⟨some 50⟩, [9]⟩ (by decide)⟩

end RaftSM
